import Mathlib

/-!
Verification of the WAV reader/writer core (fdkaac/win32/wav_rw.cc, wav_rw.h).

The C++ code builds a 44-byte WAV header by filling a packed little-endian
struct and copying it byte-for-byte into the output buffer, and decodes a
header by reading the same layout back.  We embed the code shallowly:

* byte buffers are `List Nat` (each entry one byte);
* C `int` values are `Int`, `uint32_t`/`uint16_t`/`size_t` values are `Nat`
  with explicit reductions mod 2^32 / 2^16 where the C code converts;
* `float` samples are modelled by exact rationals (see `FloatS16ToS16`);
* functions whose asserts can fire return `Option` (an assert failure is the
  fatal error path), and `FILE*` I/O is modelled by the byte/sample counts
  that reads and writes consume, since `fread`/`fwrite` on a regular file
  return the full count unless the file is exhausted.
-/

/-- Largest value of a C `uint16_t` (`std::numeric_limits<uint16_t>::max()`). -/
def uint16Max : Nat := 65535

/-- Largest value of a C `uint32_t` (`std::numeric_limits<uint32_t>::max()`). -/
def uint32Max : Nat := 4294967295

/-- `kWavHeaderSize = 44` from wav_rw.cc. -/
def kWavHeaderSize : Nat := 44

/-- `sizeof(ChunkHeader)`: a 4-byte ID plus a 4-byte size field. -/
def chunkHeaderSize : Nat := 8

/-- `kWavFormatPcm = 1` from the `WavFormat` enum. -/
def kWavFormatPcm : Nat := 1

/-- `kWavFormatALaw = 6` from the `WavFormat` enum. -/
def kWavFormatALaw : Nat := 6

/-- `kWavFormatMuLaw = 7` from the `WavFormat` enum. -/
def kWavFormatMuLaw : Nat := 7

/-- `kFmtSubchunkSize = sizeof(FmtSubchunk) - sizeof(ChunkHeader) = 16`. -/
def kFmtSubchunkSize : Nat := 16

/-- `kWavFormat = kWavFormatPcm`: the writer and reader only handle PCM. -/
def kWavFormat : Nat := kWavFormatPcm

/-- `kBytesPerSample = 2`: the writer and reader only handle 16-bit samples. -/
def kBytesPerSample : Int := 2

/-- `kChunksize = 4096 / sizeof(uint16_t) = 2048`, the fixed chunk used by the
float read/write loops. -/
def kChunksize : Nat := 2048

/-- C conversion of an `int` value to `uint16_t` (reduction mod 2^16). -/
def toUInt16 (i : Int) : Nat := (i % 65536).toNat

/-- C conversion of an `int` value to `uint32_t` (reduction mod 2^32). -/
def toUInt32 (i : Int) : Nat := (i % 4294967296).toNat

/-- Two's-complement reinterpretation of a 16-bit value as a C `int16_t`. -/
def asInt16 (x : Nat) : Int := if x < 32768 then (x : Int) else (x : Int) - 65536

/-- Two's-complement reinterpretation of a 32-bit value as a C `int`
(the value a `uint32_t` field yields when stored into an `int`). -/
def asInt32 (x : Nat) : Int := if x < 2147483648 then (x : Int) else (x : Int) - 4294967296

/-- Little-endian byte layout of a `uint16_t` field (`WriteLE16` plus the
`memcpy` of the packed struct onto the byte buffer). -/
def le16 (x : Nat) : List Nat := [x % 256, x / 256 % 256]

/-- Little-endian byte layout of a `uint32_t` field (`WriteLE32` plus the
`memcpy` of the packed struct onto the byte buffer). -/
def le32 (x : Nat) : List Nat := [x % 256, x / 256 % 256, x / 65536 % 256, x / 16777216 % 256]

/-- `WriteFourCC`: packs four ASCII characters into a `uint32_t`, low byte
first, so that its little-endian layout is the four characters in order. -/
def fourCC (a b c d : Nat) : Nat := a + 256 * b + 65536 * c + 16777216 * d

/-- Reads a `uint16_t` field from a byte buffer at a byte offset
(little-endian struct overlay; `ReadLE16` is the identity on the value). -/
def readLE16 (buf : List Nat) (off : Nat) : Nat :=
  buf.getD off 0 + 256 * buf.getD (off + 1) 0

/-- Reads a `uint32_t` field from a byte buffer at a byte offset
(little-endian struct overlay; `ReadLE32` is the identity on the value). -/
def readLE32 (buf : List Nat) (off : Nat) : Nat :=
  buf.getD off 0 + 256 * buf.getD (off + 1) 0 + 65536 * buf.getD (off + 2) 0 +
    16777216 * buf.getD (off + 3) 0

/-- `RiffChunkSize(bytes_in_payload) = bytes_in_payload + kWavHeaderSize -
sizeof(ChunkHeader)`, truncated to the `uint32_t` return type. -/
def riffChunkSize (bytes_in_payload : Nat) : Nat :=
  (bytes_in_payload + kWavHeaderSize - chunkHeaderSize) % 4294967296

/-- `ByteRate(num_channels, sample_rate, bytes_per_sample)`:
`static_cast<uint32_t>(num_channels) * sample_rate * bytes_per_sample`,
evaluated left to right in `uint32_t` arithmetic. -/
def byteRate (num_channels sample_rate bytes_per_sample : Int) : Nat :=
  toUInt32 num_channels * toUInt32 sample_rate % 4294967296 *
    toUInt32 bytes_per_sample % 4294967296

/-- `BlockAlign(num_channels, bytes_per_sample)`: the `int` product converted
to the `uint16_t` return type, hence reduced mod 2^16. -/
def blockAlign (num_channels bytes_per_sample : Int) : Nat :=
  toUInt16 (num_channels * bytes_per_sample)

/-- The `max_samples` bound computed inside `CheckWavParameters`:
`(UINT32_MAX - (kWavHeaderSize - sizeof(ChunkHeader))) / bytes_per_sample`
in `uint32_t` arithmetic (`bytes_per_sample` is positive there). -/
def maxSamples (bytes_per_sample : Int) : Nat :=
  (uint32Max - (kWavHeaderSize - chunkHeaderSize)) / bytes_per_sample.toNat

/-- `CheckWavParameters` from wav_rw.cc.  The checks appear in source order;
the C `switch` on `format` falls through to the shared trailing checks, which
are duplicated here in both accepting branches.  All quantities are in range
of the C types when the earlier checks have passed, so the `uint64_t` casts
in the source are plain `Nat` arithmetic here. -/
def checkWavParameters (num_channels sample_rate : Int) (format : Nat)
    (bytes_per_sample : Int) (num_samples : Nat) : Bool :=
  if num_channels ≤ 0 ∨ sample_rate ≤ 0 ∨ bytes_per_sample ≤ 0 then false
  else if sample_rate.toNat > uint32Max then false
  else if num_channels.toNat > uint16Max then false
  else if bytes_per_sample.toNat * 8 > uint16Max then false
  else if sample_rate.toNat * num_channels.toNat * bytes_per_sample.toNat > uint32Max then false
  else if format = kWavFormatPcm then
    if bytes_per_sample ≠ 1 ∧ bytes_per_sample ≠ 2 then false
    else if num_samples > maxSamples bytes_per_sample then false
    else if num_samples % num_channels.toNat ≠ 0 then false
    else true
  else if format = kWavFormatALaw ∨ format = kWavFormatMuLaw then
    if bytes_per_sample ≠ 1 then false
    else if num_samples > maxSamples bytes_per_sample then false
    else if num_samples % num_channels.toNat ≠ 0 then false
    else true
  else false

/-- `WriteWavHeader` from wav_rw.cc: the 44 bytes produced by filling the
packed `WavHeader` struct and copying it onto the output buffer.  The fields
appear in struct (= byte) order.  `bytes_in_payload = bytes_per_sample *
num_samples` is computed in `uint32_t` arithmetic; `num_samples` is a
`uint32_t` parameter, modelled by reducing the `Nat` argument mod 2^32. -/
def writeWavHeader (num_channels sample_rate : Int) (format : Nat)
    (bytes_per_sample : Int) (num_samples : Nat) : List Nat :=
  let bytes_in_payload : Nat := toUInt32 bytes_per_sample * (num_samples % 4294967296) % 4294967296
  le32 (fourCC 82 73 70 70) ++
  le32 (riffChunkSize bytes_in_payload) ++
  le32 (fourCC 87 65 86 69) ++
  le32 (fourCC 102 109 116 32) ++
  le32 kFmtSubchunkSize ++
  le16 (format % 65536) ++
  le16 (toUInt16 num_channels) ++
  le32 (toUInt32 sample_rate) ++
  le32 (byteRate num_channels sample_rate bytes_per_sample) ++
  le16 (blockAlign num_channels bytes_per_sample) ++
  le16 (toUInt16 (8 * bytes_per_sample)) ++
  le32 (fourCC 100 97 116 97) ++
  le32 bytes_in_payload

/-- The tail of `ReadWavHeader` after the fmt-subchunk-size handling: reading
the 8-byte data chunk header at byte offset `off` (36 without the optional
extension field, 38 with it), parsing the fields, and running the sanity
checks in source order.  A short read (fewer bytes in the source than a
`Read` call requests) returns `none`, as does any failed check. -/
def readWavHeaderRest (buf : List Nat) (off : Nat) : Option (Int × Int × Nat × Int × Nat) :=
  if buf.length < off + chunkHeaderSize then none
  else
    let format : Nat := readLE16 buf 20
    let num_channels : Int := (readLE16 buf 22 : Nat)
    let sample_rate : Int := asInt32 (readLE32 buf 24)
    let bytes_per_sample : Int := ((readLE16 buf 34) / 8 : Nat)
    let bytes_in_payload : Nat := readLE32 buf (off + 4)
    if bytes_per_sample ≤ 0 then none
    else
      let num_samples : Nat := bytes_in_payload / bytes_per_sample.toNat
      if readLE32 buf 0 ≠ fourCC 82 73 70 70 then none
      else if readLE32 buf 8 ≠ fourCC 87 65 86 69 then none
      else if readLE32 buf 12 ≠ fourCC 102 109 116 32 then none
      else if readLE32 buf off ≠ fourCC 100 97 116 97 then none
      else if readLE32 buf 4 < riffChunkSize bytes_in_payload then none
      else if readLE32 buf 28 ≠ byteRate num_channels sample_rate bytes_per_sample then none
      else if readLE16 buf 32 ≠ blockAlign num_channels bytes_per_sample then none
      else if checkWavParameters num_channels sample_rate format bytes_per_sample num_samples
      then some (num_channels, sample_rate, format, bytes_per_sample, num_samples)
      else none

/-- `ReadWavHeader` from wav_rw.cc over a byte source containing `buf`.
It first reads 36 bytes (the header up to but not including the data chunk
header); if the fmt subchunk size is not 16 it accepts only size 18 with a
zero two-byte extension field, read next from the source; then it reads the
8-byte data chunk header and checks and parses the fields
(`readWavHeaderRest`).  Field offsets follow the packed little-endian
`WavHeader` struct overlay. -/
def readWavHeader (buf : List Nat) : Option (Int × Int × Nat × Int × Nat) :=
  if buf.length < 36 then none
  else if readLE32 buf 16 = kFmtSubchunkSize then readWavHeaderRest buf 36
  else if kFmtSubchunkSize + 2 ≠ readLE32 buf 16 then none
  else if buf.length < 38 then none
  else if asInt16 (readLE16 buf 36) ≠ 0 then none
  else readWavHeaderRest buf 38

/-- C truncation of a real value to an integer (`static_cast<int16_t>` on a
value already inside the 16-bit range): rounding toward zero. -/
def truncToZero (v : ℚ) : Int := if 0 ≤ v then ⌊v⌋ else ⌈v⌉

/-- `kMaxRound = limits_int16::max() - 0.5f`; the constant is exactly
representable as a `float`. -/
def kMaxRound : ℚ := 32767 - 0.5

/-- `kMinRound = limits_int16::min() + 0.5f`; the constant is exactly
representable as a `float`. -/
def kMinRound : ℚ := -32768 + 0.5

/-- `FloatS16ToS16` from wav_rw.cc, with the `float` argument modelled by an
exact rational.  In the non-saturating branches the C additions `v + 0.5f`
and `v - 0.5f` round to nearest; for all inputs relevant to the properties
proved below (the saturation guard comparisons, which are exact, and inputs
whose sum is exactly representable, as it is for every value of magnitude at
least 0.5 and below the guard) the rational model yields the same `int16_t`
as the `float` code. -/
def FloatS16ToS16 (v : ℚ) : Int :=
  if v > 0 then
    if v ≥ kMaxRound then 32767 else truncToZero (v + 0.5)
  else
    if v ≤ kMinRound then -32768 else truncToZero (v - 0.5)

/-- State of a `WavWriter`: the three data members of the class other than
`file_handle_` (declaration order from wav_rw.h).  The output file itself
is not modelled: `fwrite` to it always succeeds with the full count. -/
structure WavWriter where
  sample_rate_ : Int
  num_channels_ : Int
  num_samples_ : Nat
deriving DecidableEq, Repr

/-- `WavWriter::WriteSamples(const int16_t*, size_t)`: appends `num_samples`
samples (their values do not affect the writer state), adds the written count
to the `uint32_t` counter `num_samples_` in `uint32_t` arithmetic, and runs
the two asserts from the source; a failed assert is the fatal path, `none`.
`fwrite` returns the full count (`written == num_samples`), so the first
assert always passes. -/
def WavWriter.WriteSamples (w : WavWriter) (num_samples : Nat) : Option WavWriter :=
  let written := num_samples
  let ns : Nat := (w.num_samples_ + written % 4294967296) % 4294967296
  if written ≤ uint32Max ∨ ns ≥ written then
    if checkWavParameters w.num_channels_ w.sample_rate_ kWavFormat kBytesPerSample ns
    then some { w with num_samples_ := ns }
    else none
  else none

/-- The loop of `WavWriter::WriteSamples(const float*, size_t)`:
`for (i = 0; i < num_samples; i += kChunksize)` converts and writes
`min(kChunksize, num_samples - i)` samples per iteration.  `iters` counts the
loop iterations still allowed; it is structural fuel so the definition
computes, and `num_samples / kChunksize + 1` iterations always suffice. -/
def writeFloatChunks (w : WavWriter) (iters num_samples i : Nat) : Option WavWriter :=
  match iters with
  | 0 => some w
  | iters' + 1 =>
    if i < num_samples then
      match w.WriteSamples (min kChunksize (num_samples - i)) with
      | none => none
      | some w2 => writeFloatChunks w2 iters' num_samples (i + kChunksize)
    else some w

/-- `WavWriter::WriteSamples(const float*, size_t)`: the converted sample
values do not affect the writer state, so only the chunked count sequence is
modelled. -/
def WavWriter.WriteSamplesFloat (w : WavWriter) (num_samples : Nat) : Option WavWriter :=
  writeFloatChunks w (num_samples / kChunksize + 1) num_samples 0

/-- One `WriteSamples` call of either overload: `(true, n)` is a float write
of `n` samples, `(false, n)` an `int16_t` write of `n` samples. -/
def writeOp (w : WavWriter) (p : Bool × Nat) : Option WavWriter :=
  if p.1 then w.WriteSamplesFloat p.2 else w.WriteSamples p.2

/-- State of a `WavReader`: the data members of the class other than
`file_handle_` (declaration order from wav_rw.h), plus `file_samples_`,
which models the `FILE*`: the number of complete 16-bit samples still
available in the file past the current position.  `fread` returns
`min(requested, file_samples_)` complete items, and returns fewer than
requested exactly when it exhausts the file (so `feof` holds then). -/
structure WavReader where
  sample_rate_ : Int
  num_channels_ : Int
  num_samples_ : Nat
  num_samples_remaining_ : Nat
  file_samples_ : Nat
deriving DecidableEq, Repr

/-- `WavReader::ReadSamples(size_t, int16_t*)`: clamps the request to
`min(uint32_t(num_samples), num_samples_remaining_)`, reads that many
samples from the file (fewer only at end of file, which satisfies the
`feof` assert), subtracts the count actually read from
`num_samples_remaining_` (the read count never exceeds it, so the
`uint32_t` subtraction is exact), and returns the count. -/
def WavReader.ReadSamples (r : WavReader) (num_samples : Nat) : Nat × WavReader :=
  let n := min (num_samples % 4294967296) r.num_samples_remaining_
  let read := min n r.file_samples_
  (read, { r with num_samples_remaining_ := r.num_samples_remaining_ - read,
                  file_samples_ := r.file_samples_ - read })

/-- The loop of `WavReader::ReadSamples(size_t, float*)`: reads
`min(kChunksize, num_samples - i)` 16-bit samples per iteration through the
`int16_t` overload, widening them to float, and accumulates the count read.
`iters` is structural fuel exactly as in `writeFloatChunks`. -/
def readFloatChunks (r : WavReader) (iters num_samples i acc : Nat) : Nat × WavReader :=
  match iters with
  | 0 => (acc, r)
  | iters' + 1 =>
    if i < num_samples then
      let p := r.ReadSamples (min kChunksize (num_samples - i))
      readFloatChunks p.2 iters' num_samples (i + kChunksize) (acc + p.1)
    else (acc, r)

/-- `WavReader::ReadSamples(size_t, float*)`: the widened sample values do
not affect the reader state, so only the chunked count sequence is
modelled. -/
def WavReader.ReadSamplesFloat (r : WavReader) (num_samples : Nat) : Nat × WavReader :=
  readFloatChunks r (num_samples / kChunksize + 1) num_samples 0 0

/-- One `ReadSamples` call of either overload: `(true, n)` is a float read
of `n` samples, `(false, n)` an `int16_t` read of `n` samples. -/
def readOp (r : WavReader) (p : Bool × Nat) : Nat × WavReader :=
  if p.1 then r.ReadSamplesFloat p.2 else r.ReadSamples p.2

/-- A sequence of `int16_t` `ReadSamples` calls with the given requested
counts; returns the total number of samples read and the final state. -/
def runReads (r : WavReader) : List Nat → Nat × WavReader
  | [] => (0, r)
  | req :: rest =>
    let p := r.ReadSamples req
    let q := runReads p.2 rest
    (p.1 + q.1, q.2)

/-- `WavReader::WavReader`: decodes and validates the header from the byte
source (`ReadWavHeader` failing, or a non-PCM format, or a byte width other
than 2, fails the constructor asserts: `none`), then records the decoded
fields and initializes `num_samples_remaining_` to the decoded total.
`file_samples` models the complete 16-bit samples the file holds after the
header. -/
def WavReader.construct (buf : List Nat) (file_samples : Nat) : Option WavReader :=
  match readWavHeader buf with
  | none => none
  | some (nc, sr, fmt, bps, ns) =>
    if fmt = kWavFormat ∧ bps = kBytesPerSample then
      some ⟨sr, nc, ns, ns, file_samples⟩
    else none

/-- The public accessor `WavReader::num_samples()`. -/
def WavReader.num_samples (r : WavReader) : Nat := r.num_samples_

/-- A hand-built 44-byte header: channels 65535, sample rate 1, PCM, 16 bits
per sample, data size 0, byte rate 131070, RIFF size 36, and a stored block
align of 65534 = (65535 * 2) mod 2^16, which differs from the product
65535 * 2 = 131070. -/
def blockAlignWrapHeader : List Nat :=
  [82, 73, 70, 70, 36, 0, 0, 0, 87, 65, 86, 69,
   102, 109, 116, 32, 16, 0, 0, 0, 1, 0, 255, 255, 1, 0, 0, 0,
   254, 255, 1, 0, 254, 255, 16, 0,
   100, 97, 116, 97, 0, 0, 0, 0]

/-- A hand-built 44-byte header: channels 1, sample rate 8000, PCM, 17 bits
per sample, data size 4, byte rate 16000, block align 2, RIFF size 40.  Its
BitsPerSample field is not a multiple of 8. -/
def bitsPerSample17Header : List Nat :=
  [82, 73, 70, 70, 40, 0, 0, 0, 87, 65, 86, 69,
   102, 109, 116, 32, 16, 0, 0, 0, 1, 0, 1, 0, 64, 31, 0, 0,
   128, 62, 0, 0, 2, 0, 17, 0,
   100, 97, 116, 97, 4, 0, 0, 0]

set_option maxHeartbeats 2000000 in
/-- Characterization of `checkWavParameters`: the sequential rejection tests
of the source are equivalent to the conjunction of the eight documented
checks. -/
theorem checkWavParameters_eq_true_iff (num_channels sample_rate : Int) (format : Nat)
    (bytes_per_sample : Int) (num_samples : Nat) :
    checkWavParameters num_channels sample_rate format bytes_per_sample num_samples = true ↔
    (0 < num_channels ∧ 0 < sample_rate ∧ 0 < bytes_per_sample ∧
     sample_rate.toNat ≤ uint32Max ∧ num_channels.toNat ≤ uint16Max ∧
     bytes_per_sample.toNat * 8 ≤ uint16Max ∧
     sample_rate.toNat * num_channels.toNat * bytes_per_sample.toNat ≤ uint32Max ∧
     ((format = kWavFormatPcm ∧ (bytes_per_sample = 1 ∨ bytes_per_sample = 2)) ∨
      ((format = kWavFormatALaw ∨ format = kWavFormatMuLaw) ∧ bytes_per_sample = 1)) ∧
     num_samples ≤ maxSamples bytes_per_sample ∧
     num_samples % num_channels.toNat = 0) := by
  unfold checkWavParameters
  split_ifs <;> simp_all <;> omega

theorem toUInt16_lt (i : Int) : toUInt16 i < 65536 := by
  unfold toUInt16
  omega

theorem toUInt32_eq (i : Int) (h1 : 0 ≤ i) (h2 : i.toNat ≤ 4294967295) :
    toUInt32 i = i.toNat := by
  unfold toUInt32
  omega

theorem toNat_mul_of_nonneg (a b : Int) (ha : 0 ≤ a) (hb : 0 ≤ b) :
    (a * b).toNat = a.toNat * b.toNat := by
  lift a to Nat using ha
  lift b to Nat using hb
  rw [← Nat.cast_mul, Int.toNat_natCast, Int.toNat_natCast, Int.toNat_natCast]

theorem byteRate_lt (nc sr bps : Int) : byteRate nc sr bps < 4294967296 :=
  Nat.mod_lt _ (by norm_num)

set_option maxHeartbeats 2000000 in
/-- The ByteRate field of an encoded header, read back from bytes 28..31,
is the value `ByteRate` computed. -/
theorem readLE32_writeWavHeader_28 (nc sr : Int) (f : Nat) (b : Int) (ns : Nat) :
    readLE32 (writeWavHeader nc sr f b ns) 28 = byteRate nc sr b := by
  have h := byteRate_lt nc sr b
  have e : readLE32 (writeWavHeader nc sr f b ns) 28 =
      byteRate nc sr b % 256 + 256 * (byteRate nc sr b / 256 % 256) +
      65536 * (byteRate nc sr b / 65536 % 256) +
      16777216 * (byteRate nc sr b / 16777216 % 256) := rfl
  rw [e]
  omega

set_option maxHeartbeats 2000000 in
/-- The BlockAlign field of an encoded header, read back from bytes 32..33,
is the value `BlockAlign` computed. -/
theorem readLE16_writeWavHeader_32 (nc sr : Int) (f : Nat) (b : Int) (ns : Nat) :
    readLE16 (writeWavHeader nc sr f b ns) 32 = blockAlign nc b := by
  have h := toUInt16_lt (nc * b)
  have e : readLE16 (writeWavHeader nc sr f b ns) 32 =
      blockAlign nc b % 256 + 256 * (blockAlign nc b / 256 % 256) := rfl
  rw [e]
  unfold blockAlign at *
  omega

set_option maxHeartbeats 2000000 in
/-- Whatever the data-chunk offset, the tail of the decoder rejects a buffer
whose stored BlockAlign field differs from `BlockAlign` recomputed on the
decoded channel count and byte width. -/
theorem readWavHeaderRest_blockAlign (buf : List Nat) (off : Nat)
    (h : readLE16 buf 32 ≠
      blockAlign ((readLE16 buf 22 : Nat) : Int) (((readLE16 buf 34) / 8 : Nat) : Int)) :
    readWavHeaderRest buf off = none := by
  unfold readWavHeaderRest
  split_ifs <;> simp_all

/-- C1: encoding a header for the tuple (channels 2, rate 44100, PCM,
2 bytes per sample, 200 samples) with `WriteWavHeader` and decoding the
resulting 44-byte buffer with `ReadWavHeader` succeeds and returns exactly
the same tuple. -/
theorem writeWavHeader_readWavHeader_roundtrip :
    readWavHeader (writeWavHeader 2 44100 kWavFormatPcm 2 200) =
      some (2, 44100, kWavFormatPcm, 2, 200) := by
  decide

/-- C2: whenever the parameter checks other than the sample-count checks
accept (equivalently, `CheckWavParameters` accepts with zero samples) and
`max_samples = (UINT32_MAX - 36) / bytes_per_sample` is divisible by the
channel count, `CheckWavParameters` accepts exactly `max_samples` samples
and rejects `max_samples + 1`. -/
theorem checkWavParameters_overflow_boundary (num_channels sample_rate : Int)
    (format : Nat) (bytes_per_sample : Int)
    (h0 : checkWavParameters num_channels sample_rate format bytes_per_sample 0 = true)
    (hdiv : maxSamples bytes_per_sample % num_channels.toNat = 0) :
    checkWavParameters num_channels sample_rate format bytes_per_sample
      (maxSamples bytes_per_sample) = true ∧
    checkWavParameters num_channels sample_rate format bytes_per_sample
      (maxSamples bytes_per_sample + 1) = false := by
  rw [checkWavParameters_eq_true_iff] at h0
  obtain ⟨h1, h2, h3, h4, h5, h6, h7, h8, _, _⟩ := h0
  constructor
  · rw [checkWavParameters_eq_true_iff]
    exact ⟨h1, h2, h3, h4, h5, h6, h7, h8, le_refl _, hdiv⟩
  · by_contra hc
    rw [Bool.not_eq_false, checkWavParameters_eq_true_iff] at hc
    obtain ⟨_, _, _, _, _, _, _, _, h9, _⟩ := hc
    omega

/-- Witness for C2 at channels 1, rate 8000, PCM, 2 bytes per sample. -/
theorem checkWavParameters_overflow_boundary_witness :
    checkWavParameters 1 8000 1 2 (maxSamples 2) = true ∧
    checkWavParameters 1 8000 1 2 (maxSamples 2 + 1) = false :=
  checkWavParameters_overflow_boundary 1 8000 1 2 (by decide) (by decide)

/-- C3 counterexample: the tuple (channels 65535, rate 1, PCM, 2 bytes per
sample, 0 samples) is accepted by `CheckWavParameters`, yet the encoded
header's BlockAlign field holds 65534, not the product 65535 * 2 = 131070:
`BlockAlign` truncates the product to its `uint16_t` return type. -/
theorem writeWavHeader_blockAlign_truncates :
    checkWavParameters 65535 1 kWavFormatPcm 2 0 = true ∧
    readLE16 (writeWavHeader 65535 1 kWavFormatPcm 2 0) 32 = 65534 ∧
    readLE16 (writeWavHeader 65535 1 kWavFormatPcm 2 0) 32 ≠ ((65535 : Int) * 2).toNat := by
  decide

/-- C3 amended: for every tuple accepted by `CheckWavParameters` the encoded
header stores ByteRate equal to channels * rate * bytes_per_sample exactly,
and stores BlockAlign equal to channels * bytes_per_sample reduced mod 2^16
(hence exactly whenever that product is below 2^16). -/
theorem writeWavHeader_byteRate_blockAlign (num_channels sample_rate : Int)
    (format : Nat) (bytes_per_sample : Int) (num_samples : Nat)
    (h : checkWavParameters num_channels sample_rate format bytes_per_sample
      num_samples = true) :
    readLE32 (writeWavHeader num_channels sample_rate format bytes_per_sample
        num_samples) 28 =
      (num_channels * sample_rate * bytes_per_sample).toNat ∧
    readLE16 (writeWavHeader num_channels sample_rate format bytes_per_sample
        num_samples) 32 =
      (num_channels * bytes_per_sample).toNat % 65536 ∧
    ((num_channels * bytes_per_sample).toNat < 65536 →
      readLE16 (writeWavHeader num_channels sample_rate format bytes_per_sample
          num_samples) 32 =
        (num_channels * bytes_per_sample).toNat) := by
  rw [checkWavParameters_eq_true_iff] at h
  obtain ⟨h1, h2, h3, h4, h5, h6, h7, _, _, _⟩ := h
  simp only [uint32Max, uint16Max] at h4 h5 h6 h7
  have hba : readLE16 (writeWavHeader num_channels sample_rate format bytes_per_sample
      num_samples) 32 = (num_channels * bytes_per_sample).toNat % 65536 := by
    rw [readLE16_writeWavHeader_32]
    unfold blockAlign toUInt16
    have hp : 0 ≤ num_channels * bytes_per_sample := mul_nonneg h1.le h3.le
    generalize num_channels * bytes_per_sample = y at hp ⊢
    omega
  refine ⟨?_, hba, fun hlt => by rw [hba]; omega⟩
  rw [readLE32_writeWavHeader_28]
  unfold byteRate
  rw [toUInt32_eq _ h1.le (by omega), toUInt32_eq _ h2.le (by omega),
    toUInt32_eq _ h3.le (by omega)]
  have e1 : (num_channels * sample_rate * bytes_per_sample).toNat =
      num_channels.toNat * sample_rate.toNat * bytes_per_sample.toNat := by
    rw [toNat_mul_of_nonneg _ _ (mul_nonneg h1.le h2.le) h3.le,
      toNat_mul_of_nonneg _ _ h1.le h2.le]
  have hcomm : num_channels.toNat * sample_rate.toNat =
      sample_rate.toNat * num_channels.toNat := Nat.mul_comm _ _
  have hb1 : 1 ≤ bytes_per_sample.toNat := by omega
  have hle : sample_rate.toNat * num_channels.toNat * 1 ≤
      sample_rate.toNat * num_channels.toNat * bytes_per_sample.toNat :=
    Nat.mul_le_mul_left _ hb1
  rw [e1, hcomm]
  have hA : sample_rate.toNat * num_channels.toNat % 4294967296 =
      sample_rate.toNat * num_channels.toNat := Nat.mod_eq_of_lt (by omega)
  rw [hA]
  exact Nat.mod_eq_of_lt (by omega)

/-- Witness for C3 amended at (channels 2, rate 44100, PCM, 2 bytes per
sample, 200 samples). -/
theorem writeWavHeader_byteRate_blockAlign_witness :
    readLE32 (writeWavHeader 2 44100 kWavFormatPcm 2 200) 28 =
      ((2 : Int) * 44100 * 2).toNat ∧
    readLE16 (writeWavHeader 2 44100 kWavFormatPcm 2 200) 32 =
      ((2 : Int) * 2).toNat % 65536 ∧
    (((2 : Int) * 2).toNat < 65536 →
      readLE16 (writeWavHeader 2 44100 kWavFormatPcm 2 200) 32 = ((2 : Int) * 2).toNat) :=
  writeWavHeader_byteRate_blockAlign 2 44100 kWavFormatPcm 2 200 (by decide)

/-- C4 counterexample: `ReadWavHeader` accepts the 44-byte buffer
`blockAlignWrapHeader`, decoding channels 65535 and 2 bytes per sample,
although the stored BlockAlign field 65534 differs from the product
65535 * 2 = 131070: the decoder compares the stored field against the
`uint16_t`-truncated product, not the product itself. -/
theorem readWavHeader_accepts_blockAlign_wrap :
    blockAlignWrapHeader.length = 44 ∧
    readWavHeader blockAlignWrapHeader = some (65535, 1, kWavFormatPcm, 2, 0) ∧
    readLE16 blockAlignWrapHeader 32 = 65534 ∧
    readLE16 blockAlignWrapHeader 32 ≠ ((65535 : Int) * 2).toNat := by
  decide

set_option maxHeartbeats 2000000 in
/-- C4 amended: every buffer (in particular every 44-byte one) whose stored
BlockAlign field differs from channels * bytes_per_sample reduced mod 2^16
(channels and bytes per sample as decoded from the same buffer) is rejected
by `ReadWavHeader`. -/
theorem readWavHeader_rejects_blockAlign_mismatch (buf : List Nat)
    (_hlen : buf.length = 44)
    (h : readLE16 buf 32 ≠
      blockAlign ((readLE16 buf 22 : Nat) : Int) (((readLE16 buf 34) / 8 : Nat) : Int)) :
    readWavHeader buf = none := by
  unfold readWavHeader
  split_ifs <;> first | rfl | exact readWavHeaderRest_blockAlign buf _ h

/-- Witness for C4 amended: a header buffer whose BlockAlign field was
corrupted from 4 to 5 is rejected. -/
theorem readWavHeader_rejects_blockAlign_mismatch_witness :
    readWavHeader
      [82, 73, 70, 70, 180, 1, 0, 0, 87, 65, 86, 69,
       102, 109, 116, 32, 16, 0, 0, 0, 1, 0, 2, 0, 68, 172, 0, 0,
       16, 177, 2, 0, 5, 0, 16, 0,
       100, 97, 116, 97, 144, 1, 0, 0] = none :=
  readWavHeader_rejects_blockAlign_mismatch _ (by decide) (by decide)

/-- C9: `ReadWavHeader` accepts the buffer `bitsPerSample17Header`, whose
BitsPerSample field is 17 (not a multiple of 8), decoding bytes_per_sample
2 by truncating division, while `WriteWavHeader` on the decoded tuple
always stores BitsPerSample = 8 * bytes_per_sample = 16, so the encoder does
not reproduce this buffer. -/
theorem readWavHeader_accepts_bitsPerSample17 :
    readWavHeader bitsPerSample17Header = some (1, 8000, kWavFormatPcm, 2, 2) ∧
    readLE16 bitsPerSample17Header 34 = 17 ∧
    readLE16 (writeWavHeader 1 8000 kWavFormatPcm 2 2) 34 = 16 ∧
    writeWavHeader 1 8000 kWavFormatPcm 2 2 ≠ bitsPerSample17Header := by
  decide

/-- C5: the float-to-int16 sample conversion saturates at the signed 16-bit
range and rounds half away from zero: 40000 maps to 32767, -40000 to -32768,
100.4 to 100, 100.6 to 101 (and 100.5 to 101, -100.5 to -101); in general
every value at least 32767 - 0.5 maps to 32767 and every value at most
-32768 + 0.5 maps to -32768. -/
theorem floatS16ToS16_saturation (v w : ℚ)
    (hv : 32767 - 0.5 ≤ v) (hw : w ≤ -32768 + 0.5) :
    FloatS16ToS16 40000 = 32767 ∧ FloatS16ToS16 (-40000) = -32768 ∧
    FloatS16ToS16 (100.4) = 100 ∧ FloatS16ToS16 (100.6) = 101 ∧
    FloatS16ToS16 (100.5) = 101 ∧ FloatS16ToS16 (-100.5) = -101 ∧
    FloatS16ToS16 v = 32767 ∧ FloatS16ToS16 w = -32768 := by
  refine ⟨by norm_num [FloatS16ToS16, kMaxRound],
    by norm_num [FloatS16ToS16, kMaxRound, kMinRound],
    by norm_num [FloatS16ToS16, kMaxRound, kMinRound, truncToZero],
    by norm_num [FloatS16ToS16, kMaxRound, kMinRound, truncToZero],
    by norm_num [FloatS16ToS16, kMaxRound, kMinRound, truncToZero],
    ?_, ?_, ?_⟩
  · norm_num [FloatS16ToS16, kMaxRound, kMinRound, truncToZero]
    exact Int.ceil_intCast (-101)
  · unfold FloatS16ToS16 kMaxRound
    rw [if_pos (lt_of_lt_of_le (by norm_num) hv), if_pos hv]
  · unfold FloatS16ToS16 kMinRound
    rw [if_neg (not_lt.mpr (le_trans hw (by norm_num))), if_pos hw]

/-- Witness for C5 at v = 40000 and w = -40000. -/
theorem floatS16ToS16_saturation_witness :
    FloatS16ToS16 40000 = 32767 ∧ FloatS16ToS16 (-40000) = -32768 ∧
    FloatS16ToS16 (100.4) = 100 ∧ FloatS16ToS16 (100.6) = 101 ∧
    FloatS16ToS16 (100.5) = 101 ∧ FloatS16ToS16 (-100.5) = -101 ∧
    FloatS16ToS16 40000 = 32767 ∧ FloatS16ToS16 (-40000) = -32768 :=
  floatS16ToS16_saturation 40000 (-40000) (by norm_num) (by norm_num)

/-- Per-call behavior of the `int16_t` `ReadSamples`: the count read never
exceeds both the request and the remaining counter, the remaining counter
drops by exactly the count read, and the other fields are unchanged. -/
theorem ReadSamples_spec (r : WavReader) (req : Nat) :
    (r.ReadSamples req).1 ≤ min req r.num_samples_remaining_ ∧
    (r.ReadSamples req).2.num_samples_remaining_ =
      r.num_samples_remaining_ - (r.ReadSamples req).1 ∧
    (r.ReadSamples req).2.num_samples_ = r.num_samples_ ∧
    (r.ReadSamples req).2.sample_rate_ = r.sample_rate_ ∧
    (r.ReadSamples req).2.num_channels_ = r.num_channels_ := by
  refine ⟨?_, rfl, rfl, rfl, rfl⟩
  show min (min (req % 4294967296) r.num_samples_remaining_) r.file_samples_ ≤
    min req r.num_samples_remaining_
  omega

/-- Across a sequence of `int16_t` reads, the total count read plus the final
remaining counter equals the initial remaining counter, and the other fields
never change. -/
theorem runReads_spec (r : WavReader) (reqs : List Nat) :
    (runReads r reqs).1 + (runReads r reqs).2.num_samples_remaining_ =
      r.num_samples_remaining_ ∧
    (runReads r reqs).2.num_samples_ = r.num_samples_ ∧
    (runReads r reqs).2.sample_rate_ = r.sample_rate_ ∧
    (runReads r reqs).2.num_channels_ = r.num_channels_ := by
  induction reqs generalizing r with
  | nil => exact ⟨Nat.zero_add _, rfl, rfl, rfl⟩
  | cons req rest ih =>
    have hs := ReadSamples_spec r req
    have hr := ih (r.ReadSamples req).2
    simp only [runReads]
    rw [hs.2.1] at hr
    refine ⟨?_, hr.2.1.trans hs.2.2.1, hr.2.2.1.trans hs.2.2.2.1,
      hr.2.2.2.trans hs.2.2.2.2⟩
    have h1 := hs.1
    have h2 := hr.1
    omega

/-- C6: `ReadSamples` reads at most `min(requested, remaining)` samples,
decrements the remaining counter by exactly the count read and returns that
count; starting from a freshly constructed reader (remaining = declared
total), the total read across any sequence of reads never exceeds the
header's sample count, whatever extra samples the file holds. -/
theorem readSamples_clamped (r : WavReader) (req : Nat) (reqs : List Nat)
    (h : r.num_samples_remaining_ = r.num_samples_) :
    (r.ReadSamples req).1 ≤ min req r.num_samples_remaining_ ∧
    (r.ReadSamples req).2.num_samples_remaining_ =
      r.num_samples_remaining_ - (r.ReadSamples req).1 ∧
    (runReads r reqs).1 ≤ r.num_samples_ := by
  have hs := ReadSamples_spec r req
  have hr := runReads_spec r reqs
  refine ⟨hs.1, hs.2.1, ?_⟩
  have h1 := hr.1
  omega

/-- Witness for C6: a reader with 4 declared samples and 10 in the file. -/
theorem readSamples_clamped_witness :
    (WavReader.ReadSamples ⟨8000, 1, 4, 4, 10⟩ 10).1 ≤ min 10 4 ∧
    (WavReader.ReadSamples ⟨8000, 1, 4, 4, 10⟩ 10).2.num_samples_remaining_ =
      4 - (WavReader.ReadSamples ⟨8000, 1, 4, 4, 10⟩ 10).1 ∧
    (runReads ⟨8000, 1, 4, 4, 10⟩ [3, 3]).1 ≤ 4 :=
  readSamples_clamped ⟨8000, 1, 4, 4, 10⟩ 10 [3, 3] rfl

/-- C10: the `num_samples()` accessor is unchanged by any sequence of reads
(only the private remaining counter moves), and a constructed reader stores
the decoded header total in both counters. -/
theorem num_samples_accessor_stable (r : WavReader) (reqs : List Nat)
    (buf : List Nat) (file_samples : Nat) (t : Int × Int × Nat × Int × Nat)
    (r0 : WavReader) (hdec : readWavHeader buf = some t)
    (hcons : WavReader.construct buf file_samples = some r0) :
    (runReads r reqs).2.num_samples = r.num_samples ∧
    r0.num_samples = t.2.2.2.2 ∧
    r0.num_samples_remaining_ = r0.num_samples := by
  obtain ⟨nc, sr, fmt, bps, ns⟩ := t
  have hcons' : (if fmt = kWavFormat ∧ bps = kBytesPerSample then
      some (⟨sr, nc, ns, ns, file_samples⟩ : WavReader) else none) = some r0 := by
    rw [← hcons]
    unfold WavReader.construct
    rw [hdec]
  split_ifs at hcons' with hif
  injection hcons' with h
  subst h
  exact ⟨(runReads_spec r reqs).2.1, rfl, rfl⟩

/-- Witness for C10: the reader constructed from the encoded header for
(2, 44100, PCM, 2, 200). -/
theorem num_samples_accessor_stable_witness :
    (runReads ⟨8000, 1, 4, 4, 10⟩ [3]).2.num_samples =
      WavReader.num_samples ⟨8000, 1, 4, 4, 10⟩ ∧
    WavReader.num_samples ⟨44100, 2, 200, 200, 400⟩ = 200 ∧
    (⟨44100, 2, 200, 200, 400⟩ : WavReader).num_samples_remaining_ =
      WavReader.num_samples ⟨44100, 2, 200, 200, 400⟩ :=
  num_samples_accessor_stable ⟨8000, 1, 4, 4, 10⟩ [3] (writeWavHeader 2 44100 1 2 200)
    400 (2, 44100, 1, 2, 200) ⟨44100, 2, 200, 200, 400⟩ (by decide) (by decide)

/-- What a successful `int16_t` `WriteSamples` call did: only the sample
counter changed, by the `uint32_t` addition of the written count, and the
post-write validator check passed. -/
theorem WriteSamples_eq_some (w w' : WavWriter) (n : Nat)
    (h : w.WriteSamples n = some w') :
    w'.sample_rate_ = w.sample_rate_ ∧ w'.num_channels_ = w.num_channels_ ∧
    w'.num_samples_ = (w.num_samples_ + n % 4294967296) % 4294967296 ∧
    checkWavParameters w'.num_channels_ w'.sample_rate_ kWavFormat kBytesPerSample
      w'.num_samples_ = true := by
  simp only [WavWriter.WriteSamples] at h
  split_ifs at h with h1 h2
  injection h with h
  subst h
  exact ⟨rfl, rfl, rfl, h2⟩

/-- A `int16_t` `WriteSamples` call succeeds when the updated counter does
not wrap and satisfies the validator. -/
theorem WriteSamples_of_check (w : WavWriter) (n : Nat) (hn : n ≤ 4294967295)
    (hlt : w.num_samples_ + n < 4294967296)
    (hchk : checkWavParameters w.num_channels_ w.sample_rate_ kWavFormat kBytesPerSample
      (w.num_samples_ + n) = true) :
    w.WriteSamples n = some { w with num_samples_ := w.num_samples_ + n } := by
  simp only [WavWriter.WriteSamples]
  have e : (w.num_samples_ + n % 4294967296) % 4294967296 = w.num_samples_ + n := by omega
  rw [e, if_pos (show n ≤ uint32Max ∨ w.num_samples_ + n ≥ n from
    Or.inl (by unfold uint32Max; omega)), if_pos hchk]

theorem maxSamples_kBytesPerSample : maxSamples kBytesPerSample = 2147483629 := by decide

/-- The float-write loop writes all remaining samples and adds them to the
counter, provided the validator accepts the running count before and after
and the channel count divides the 2048-sample chunk size (so every chunk
boundary keeps the count divisible by the channel count). -/
theorem writeFloatChunks_of_check : ∀ (iters : Nat) (w : WavWriter) (n i : Nat),
    n ≤ i + kChunksize * iters →
    checkWavParameters w.num_channels_ w.sample_rate_ kWavFormat kBytesPerSample
      w.num_samples_ = true →
    checkWavParameters w.num_channels_ w.sample_rate_ kWavFormat kBytesPerSample
      (w.num_samples_ + (n - i)) = true →
    w.num_channels_.toNat ∣ kChunksize →
    writeFloatChunks w iters n i =
      some { w with num_samples_ := w.num_samples_ + (n - i) }
  | 0, w, n, i, hbound, _, _, _ => by
    have hni : n - i = 0 := by
      unfold kChunksize at hbound
      omega
    rw [hni]
    rfl
  | (iters' + 1), w, n, i, hbound, hchk0, hchkT, hdvd => by
    unfold writeFloatChunks
    by_cases hin : i < n
    · rw [if_pos hin]
      have hiff0 := (checkWavParameters_eq_true_iff _ _ _ _ _).mp hchk0
      have hiffT := (checkWavParameters_eq_true_iff _ _ _ _ _).mp hchkT
      have hmax := maxSamples_kBytesPerSample
      have hc0 : 0 < w.num_channels_.toNat := by
        have := hiff0.1
        omega
      have hdvd_old : w.num_channels_.toNat ∣ w.num_samples_ :=
        Nat.dvd_of_mod_eq_zero hiff0.2.2.2.2.2.2.2.2.2
      have hdvd_tot : w.num_channels_.toNat ∣ w.num_samples_ + (n - i) :=
        Nat.dvd_of_mod_eq_zero hiffT.2.2.2.2.2.2.2.2.2
      have hmodM : (w.num_samples_ + min kChunksize (n - i)) %
          w.num_channels_.toNat = 0 := by
        rcases Nat.le_total kChunksize (n - i) with hcase | hcase
        · rw [Nat.min_eq_left hcase]
          obtain ⟨k, hk⟩ := Nat.dvd_add hdvd_old hdvd
          rw [hk]
          exact Nat.mul_mod_right _ _
        · rw [Nat.min_eq_right hcase]
          obtain ⟨k, hk⟩ := hdvd_tot
          rw [hk]
          exact Nat.mul_mod_right _ _
      have hchkM : checkWavParameters w.num_channels_ w.sample_rate_ kWavFormat
          kBytesPerSample (w.num_samples_ + min kChunksize (n - i)) = true := by
        rw [checkWavParameters_eq_true_iff]
        refine ⟨hiff0.1, hiff0.2.1, hiff0.2.2.1, hiff0.2.2.2.1, hiff0.2.2.2.2.1,
          hiff0.2.2.2.2.2.1, hiff0.2.2.2.2.2.2.1, hiff0.2.2.2.2.2.2.2.1, ?_, hmodM⟩
        have h9 := hiffT.2.2.2.2.2.2.2.2.1
        have : min kChunksize (n - i) ≤ n - i := Nat.min_le_right _ _
        omega
      have h9old := hiff0.2.2.2.2.2.2.2.2.1
      rw [WriteSamples_of_check w (min kChunksize (n - i))
        (by unfold kChunksize uint32Max at *; omega)
        (by unfold kChunksize at *; omega) hchkM]
      show writeFloatChunks { w with num_samples_ := w.num_samples_ + min kChunksize (n - i) }
        iters' n (i + kChunksize) =
        some { w with num_samples_ := w.num_samples_ + (n - i) }
      have hrec := writeFloatChunks_of_check iters'
        { w with num_samples_ := w.num_samples_ + min kChunksize (n - i) }
        n (i + kChunksize)
        (by unfold kChunksize at *; omega)
        hchkM
        (by
          show checkWavParameters w.num_channels_ w.sample_rate_ kWavFormat
            kBytesPerSample
            (w.num_samples_ + min kChunksize (n - i) + (n - (i + kChunksize))) = true
          have e2 : w.num_samples_ + min kChunksize (n - i) + (n - (i + kChunksize)) =
              w.num_samples_ + (n - i) := by
            unfold kChunksize at *
            omega
          rw [e2]
          exact hchkT)
        hdvd
      rw [hrec]
      have e3 : w.num_samples_ + min kChunksize (n - i) + (n - (i + kChunksize)) =
          w.num_samples_ + (n - i) := by
        unfold kChunksize at *
        omega
      show some ({ w with num_samples_ :=
          w.num_samples_ + min kChunksize (n - i) + (n - (i + kChunksize)) } : WavWriter) = _
      rw [e3]
    · rw [if_neg hin]
      have hni : n - i = 0 := by omega
      rw [hni]
      rfl

/-- C7 counterexample: a fresh 3-channel writer satisfies every hypothesis of
the claim for a float write of 2049 samples (2049 is a multiple of 3, and the
validator accepts both the current total 0 and the new total 2049), yet the
write fails: the first 2048-sample chunk leaves the counter at 2048, which is
not divisible by 3, so the validator re-check after that chunk rejects. -/
theorem writeSamplesFloat_chunk_divisibility_failure :
    WavWriter.WriteSamplesFloat ⟨8000, 3, 0⟩ 2049 = none ∧
    (2049 : Nat) % 3 = 0 ∧
    checkWavParameters 3 8000 kWavFormat kBytesPerSample 0 = true ∧
    checkWavParameters 3 8000 kWavFormat kBytesPerSample 2049 = true := by
  decide

/-- C7 amended: a float write of `n` samples on a writer whose running count
passes the validator succeeds, processed in 2048-sample chunks with the
validator re-run after every chunk, provided the validator also accepts the
final total and the channel count divides the 2048-sample chunk size (so
every intermediate chunk boundary stays divisible by the channel count);
the final counter is the old count plus `n`. -/
theorem writeSamplesFloat_succeeds (w : WavWriter) (n : Nat)
    (hchk0 : checkWavParameters w.num_channels_ w.sample_rate_ kWavFormat kBytesPerSample
      w.num_samples_ = true)
    (hchkT : checkWavParameters w.num_channels_ w.sample_rate_ kWavFormat kBytesPerSample
      (w.num_samples_ + n) = true)
    (hdvd : w.num_channels_.toNat ∣ kChunksize) :
    w.WriteSamplesFloat n = some { w with num_samples_ := w.num_samples_ + n } := by
  unfold WavWriter.WriteSamplesFloat
  have hb : n ≤ 0 + kChunksize * (n / kChunksize + 1) := by
    unfold kChunksize
    omega
  exact writeFloatChunks_of_check (n / kChunksize + 1) w n 0 hb hchk0 hchkT hdvd

/-- Witness for C7 amended: a fresh stereo writer accepts a float write of
4100 samples (three chunks: 2048, 2048, 4). -/
theorem writeSamplesFloat_succeeds_witness :
    WavWriter.WriteSamplesFloat ⟨8000, 2, 0⟩ 4100 = some ⟨8000, 2, 4100⟩ :=
  writeSamplesFloat_succeeds ⟨8000, 2, 0⟩ 4100 (by decide) (by decide) (by decide)

/-- A successful float-write loop never decreases the sample counter (each
chunk is at most 2048 samples, and a validator-passing counter is at most
`maxSamples 2`, so the `uint32_t` addition cannot wrap), preserves the other
fields, and leaves the validator check passing. -/
theorem writeFloatChunks_mono : ∀ (iters : Nat) (w : WavWriter) (n i : Nat) (w' : WavWriter),
    checkWavParameters w.num_channels_ w.sample_rate_ kWavFormat kBytesPerSample
      w.num_samples_ = true →
    writeFloatChunks w iters n i = some w' →
    w'.sample_rate_ = w.sample_rate_ ∧ w'.num_channels_ = w.num_channels_ ∧
    w.num_samples_ ≤ w'.num_samples_ ∧
    checkWavParameters w'.num_channels_ w'.sample_rate_ kWavFormat kBytesPerSample
      w'.num_samples_ = true
  | 0, w, n, i, w', hchk, heq => by
    injection heq with h
    subst h
    exact ⟨rfl, rfl, le_refl _, hchk⟩
  | (iters' + 1), w, n, i, w', hchk, heq => by
    unfold writeFloatChunks at heq
    by_cases hin : i < n
    · rw [if_pos hin] at heq
      cases hW : w.WriteSamples (min kChunksize (n - i)) with
      | none =>
        rw [hW] at heq
        exact Option.noConfusion heq
      | some w2 =>
        rw [hW] at heq
        have heq2 : writeFloatChunks w2 iters' n (i + kChunksize) = some w' := heq
        have hs := WriteSamples_eq_some w w2 _ hW
        have hrec := writeFloatChunks_mono iters' w2 n (i + kChunksize) w' hs.2.2.2 heq2
        refine ⟨hrec.1.trans hs.1, hrec.2.1.trans hs.2.1, ?_, hrec.2.2.2⟩
        have h9 := ((checkWavParameters_eq_true_iff _ _ _ _ _).mp hchk).2.2.2.2.2.2.2.2.1
        have hmax := maxSamples_kBytesPerSample
        have h2 := hs.2.2.1
        have h3 := hrec.2.2.1
        have hch : min kChunksize (n - i) ≤ 2048 :=
          le_trans (Nat.min_le_left _ _) (by unfold kChunksize; exact le_refl _)
        omega
    · rw [if_neg hin] at heq
      injection heq with h
      subst h
      exact ⟨rfl, rfl, le_refl _, hchk⟩

/-- The float-read loop preserves the reader's rate, channel count and
header total, and never increases the remaining counter. -/
theorem readFloatChunks_spec : ∀ (iters : Nat) (r : WavReader) (n i acc : Nat),
    (readFloatChunks r iters n i acc).2.sample_rate_ = r.sample_rate_ ∧
    (readFloatChunks r iters n i acc).2.num_channels_ = r.num_channels_ ∧
    (readFloatChunks r iters n i acc).2.num_samples_remaining_ ≤
      r.num_samples_remaining_ ∧
    (readFloatChunks r iters n i acc).2.num_samples_ = r.num_samples_
  | 0, r, n, i, acc => ⟨rfl, rfl, le_refl _, rfl⟩
  | (iters' + 1), r, n, i, acc => by
    simp only [readFloatChunks]
    by_cases hin : i < n
    · rw [if_pos hin]
      have hs := ReadSamples_spec r (min kChunksize (n - i))
      have hrec := readFloatChunks_spec iters' (r.ReadSamples (min kChunksize (n - i))).2
        n (i + kChunksize) (acc + (r.ReadSamples (min kChunksize (n - i))).1)
      refine ⟨hrec.1.trans hs.2.2.2.1, hrec.2.1.trans hs.2.2.2.2, ?_,
        hrec.2.2.2.trans hs.2.2.1⟩
      have h1 := hrec.2.2.1
      have h2 := hs.2.1
      omega
    · rw [if_neg hin]
      exact ⟨rfl, rfl, le_refl _, rfl⟩

/-- C8 counterexample: starting from a fresh mono writer, an `int16_t` write
of 2147483629 samples is accepted, and a second write of 2147483667 samples
is also accepted while wrapping the `uint32_t` counter from 2147483629 back
to 0: the counter is not monotonically non-decreasing (the overflow assert
passes because its first disjunct `written <= UINT32_MAX` already holds). -/
theorem writeSamples_counter_wraps :
    WavWriter.WriteSamples ⟨8000, 1, 0⟩ 2147483629 = some ⟨8000, 1, 2147483629⟩ ∧
    WavWriter.WriteSamples ⟨8000, 1, 2147483629⟩ 2147483667 = some ⟨8000, 1, 0⟩ ∧
    ¬ (2147483629 : Nat) ≤ 0 := by
  decide

/-- C8 amended: sample rate and channel count are unchanged by every write
and read; the reader's remaining counter never increases (and its header
total never changes) over any read of either overload; the writer's counter
is non-decreasing over every write whose truncated sample count is at most
2147483666 = 2^32 - 1 - maxSamples(2) (float writes chunk by 2048, so they
carry no such restriction), and the validator keeps passing. -/
theorem stream_state_invariants (w w' : WavWriter) (p q : Bool × Nat) (r : WavReader)
    (hchk : checkWavParameters w.num_channels_ w.sample_rate_ kWavFormat kBytesPerSample
      w.num_samples_ = true)
    (hn : p.1 = false → p.2 % 4294967296 ≤ 2147483666)
    (hop : writeOp w p = some w') :
    (w'.sample_rate_ = w.sample_rate_ ∧ w'.num_channels_ = w.num_channels_ ∧
     w.num_samples_ ≤ w'.num_samples_ ∧
     checkWavParameters w'.num_channels_ w'.sample_rate_ kWavFormat kBytesPerSample
       w'.num_samples_ = true) ∧
    ((readOp r q).2.sample_rate_ = r.sample_rate_ ∧
     (readOp r q).2.num_channels_ = r.num_channels_ ∧
     (readOp r q).2.num_samples_remaining_ ≤ r.num_samples_remaining_ ∧
     (readOp r q).2.num_samples_ = r.num_samples_) := by
  constructor
  · obtain ⟨b, nn⟩ := p
    cases b with
    | false =>
      have hop2 : w.WriteSamples nn = some w' := hop
      have hb : nn % 4294967296 ≤ 2147483666 := hn rfl
      have hs := WriteSamples_eq_some w w' nn hop2
      refine ⟨hs.1, hs.2.1, ?_, hs.2.2.2⟩
      have h9 := ((checkWavParameters_eq_true_iff _ _ _ _ _).mp hchk).2.2.2.2.2.2.2.2.1
      have hmax := maxSamples_kBytesPerSample
      have h2 := hs.2.2.1
      omega
    | true =>
      have hop2 : writeFloatChunks w (nn / kChunksize + 1) nn 0 = some w' := hop
      exact writeFloatChunks_mono (nn / kChunksize + 1) w nn 0 w' hchk hop2
  · obtain ⟨b, nn⟩ := q
    cases b with
    | false =>
      have hs := ReadSamples_spec r nn
      refine ⟨hs.2.2.2.1, hs.2.2.2.2, ?_, hs.2.2.1⟩
      show (r.ReadSamples nn).2.num_samples_remaining_ ≤ r.num_samples_remaining_
      have h2 := hs.2.1
      omega
    | true =>
      exact readFloatChunks_spec (nn / kChunksize + 1) r nn 0 0

/-- Witness for C8 amended: a fresh stereo writer accepting a 4-sample write,
and a reader with 4 remaining samples handling a 3-sample read. -/
theorem stream_state_invariants_witness :
    ((8000 : Int) = 8000 ∧ (2 : Int) = 2 ∧ (0 : Nat) ≤ 4 ∧
     checkWavParameters 2 8000 kWavFormat kBytesPerSample 4 = true) ∧
    ((readOp ⟨8000, 1, 4, 4, 10⟩ (false, 3)).2.sample_rate_ = 8000 ∧
     (readOp ⟨8000, 1, 4, 4, 10⟩ (false, 3)).2.num_channels_ = 1 ∧
     (readOp ⟨8000, 1, 4, 4, 10⟩ (false, 3)).2.num_samples_remaining_ ≤ 4 ∧
     (readOp ⟨8000, 1, 4, 4, 10⟩ (false, 3)).2.num_samples_ = 4) :=
  stream_state_invariants ⟨8000, 2, 0⟩ ⟨8000, 2, 4⟩ (false, 4) (false, 3)
    ⟨8000, 1, 4, 4, 10⟩ (by decide) (fun _ => by decide) (by decide)
